import Mathlib

/-!
Verification of the finite-element utility layer
(opencmiss/utils/zinc/finiteelement.py).

The Python module is a thin wrapper over the external Zinc engine.  We embed
the wrapper's own control flow faithfully; the engine primitives it calls
(nodal parameter storage, string/real evaluation, identifier allocation,
aggregate node-set fields) and the repository's vector-math helpers
(opencmiss.utils.maths.vectorops, not part of the reviewed sources) are
modelled from the specification, as marked on each definition.

Real numbers are modelled by the rationals; machine floats are out of scope.
-/

/-- Association-list lookup: the value of the first entry whose key equals
the given key, mirroring a Python dict lookup on insertion-ordered entries
(and the first-match semantics of the Zinc template queries). -/
def alookup {α β : Type} [DecidableEq α] (k : α) : List (α × β) → Option β
  | [] => none
  | (a, b) :: rest => if a = k then some b else alookup k rest

namespace vectorops

/-- Modelled from the spec: componentwise vector addition from the
vector-math utility (requires conformant dimensions). -/
def add (a b : List ℚ) : List ℚ := List.zipWith (fun x y => x + y) a b

/-- Modelled from the spec: dot product helper of the vector-math utility. -/
def dot (a b : List ℚ) : ℚ := (List.zipWith (fun x y => x * y) a b).sum

/-- Modelled from the spec: matrix times vector from the vector-math
utility, one dot product per matrix row. -/
def matrixvectormult (m : List (List ℚ)) (v : List ℚ) : List ℚ :=
  m.map (fun row => dot row v)

end vectorops

/-- The eight nodal derivative labels, in the order the source lists them. -/
inductive DerivLabel : Type
  | value
  | d_ds1
  | d_ds2
  | d2_ds1ds2
  | d_ds3
  | d2_ds1ds3
  | d2_ds2ds3
  | d3_ds1ds2ds3
deriving DecidableEq

/-- The fixed derivative iteration order of transformCoordinates. -/
def derivOrder : List DerivLabel :=
  [DerivLabel.value, DerivLabel.d_ds1, DerivLabel.d_ds2, DerivLabel.d2_ds1ds2,
   DerivLabel.d_ds3, DerivLabel.d2_ds1ds3, DerivLabel.d2_ds2ds3, DerivLabel.d3_ds1ds2ds3]

/-- One stored nodal parameter set (one derivative version slot).
Modelled from the spec: getNodeParameters / setNodeParameters on the Zinc
engine may fail per slot (undefined parameters, etc.); the two flags record
whether reading respectively writing this slot succeeds. -/
structure NodeSlot : Type where
  values : List ℚ
  readOk : Bool
  writeOk : Bool
deriving DecidableEq

/-- Per-field nodal parameters: for each derivative label, the list of
version slots (version v is entry v - 1). -/
abbrev NodeParams := List (DerivLabel × List NodeSlot)

/-- A node of the node store: identifier plus, per field name, its nodal
parameters.  A field absent from the list is not defined on the node. -/
structure ZNode : Type where
  id : ℤ
  fieldParams : List (String × NodeParams)
deriving DecidableEq

/-- Coordinate system type of a field (only rectangular cartesian matters
to the wrapper). -/
inductive CoordinateSystemType : Type
  | rectangularCartesian
  | other
deriving DecidableEq

/-- Static description of a field as the wrapper queries it. -/
structure FieldInfo : Type where
  name : String
  ncomp : ℕ
  coordSys : CoordinateSystemType
  isFiniteElement : Bool
deriving DecidableEq

/-- The mutable state transformCoordinates runs against: the nodes of the
fieldmodule's node set, in iteration order. -/
structure Fieldmodule : Type where
  nodes : List ZNode
deriving DecidableEq

/-- Look up the slot of one (field, derivative, version) combination on a
node; version v + 1 of the source is index v here. -/
def getSlot (n : ZNode) (fname : String) (d : DerivLabel) (v : ℕ) : Option NodeSlot :=
  match alookup fname n.fieldParams with
  | none => none
  | some ps =>
    match alookup d ps with
    | none => none
    | some ss => ss[v]?

/-- The body of the transformCoordinates version loop for one slot:
read the parameters, multiply by the matrix, add the offset for the VALUE
derivative only, write back.  Returns the success of this slot's get/set
pair together with the resulting slot. -/
def transformSlot (rotationScale : List (List ℚ)) (offset : List ℚ) (derivative : DerivLabel)
    (s : NodeSlot) : Bool × NodeSlot :=
  if s.readOk then
    let newValues := vectorops.matrixvectormult rotationScale s.values
    let newValues := if derivative = DerivLabel.value then vectorops.add newValues offset else newValues
    if s.writeOk then (true, { s with values := newValues }) else (false, s)
  else (false, s)

/-- The version loop of transformCoordinates over the slots of one
derivative, threading the success flag as the source does. -/
def transformSlots (rotationScale : List (List ℚ)) (offset : List ℚ) (derivative : DerivLabel) :
    List NodeSlot → Bool → List NodeSlot × Bool
  | [], ok => ([], ok)
  | s :: rest, ok =>
    let p := transformSlot rotationScale offset derivative s
    let q := transformSlots rotationScale offset derivative rest (ok && p.1)
    (p.2 :: q.1, q.2)

/-- Process one derivative label of a node's parameters for the field:
the first entry for that label (the one the node template reports) has all
its version slots transformed; other entries are untouched. -/
def transformDeriv (rotationScale : List (List ℚ)) (offset : List ℚ) (d : DerivLabel) :
    NodeParams → Bool → NodeParams × Bool
  | [], ok => ([], ok)
  | (d0, ss) :: rest, ok =>
    if d0 = d then
      let p := transformSlots rotationScale offset d ss ok
      ((d0, p.1) :: rest, p.2)
    else
      let q := transformDeriv rotationScale offset d rest ok
      ((d0, ss) :: q.1, q.2)

/-- The derivative loop of transformCoordinates over the fixed label
order, on one node's parameters for the field. -/
def transformParams (rotationScale : List (List ℚ)) (offset : List ℚ)
    (ps : NodeParams) (ok : Bool) : NodeParams × Bool :=
  derivOrder.foldl (fun acc d => transformDeriv rotationScale offset d acc.1 acc.2) (ps, ok)

/-- Apply the per-node work of transformCoordinates to a node's field
entries: only the (first) entry of the transformed field is touched; a node
not defining the field reports zero versions and is left unchanged. -/
def transformNodeEntry (rotationScale : List (List ℚ)) (offset : List ℚ) (fname : String) :
    List (String × NodeParams) → Bool → List (String × NodeParams) × Bool
  | [], ok => ([], ok)
  | (g, ps) :: rest, ok =>
    if g = fname then
      let p := transformParams rotationScale offset ps ok
      ((g, p.1) :: rest, p.2)
    else
      let q := transformNodeEntry rotationScale offset fname rest ok
      ((g, ps) :: q.1, q.2)

/-- The node sweep of transformCoordinates: every node of the node set is
visited in order, threading the success flag. -/
def sweepNodes (rotationScale : List (List ℚ)) (offset : List ℚ) (fname : String) :
    List ZNode → Bool → List ZNode × Bool
  | [], ok => ([], ok)
  | n :: rest, ok =>
    let p := transformNodeEntry rotationScale offset fname n.fieldParams ok
    let q := sweepNodes rotationScale offset fname rest p.2
    ({ n with fieldParams := p.1 } :: q.1, q.2)

/-- transformCoordinates of the source: validate the component count, the
matrix and offset dimensions, the coordinate system type and the
finite-element cast, returning failure with no mutation on any violation;
otherwise sweep all nodes and report the accumulated success flag. -/
def transformCoordinates (fm : Fieldmodule) (f : FieldInfo)
    (rotationScale : List (List ℚ)) (offset : List ℚ) : Bool × Fieldmodule :=
  if f.ncomp ≠ 2 ∧ f.ncomp ≠ 3 then (false, fm)
  else if rotationScale.length ≠ f.ncomp ∨ offset.length ≠ f.ncomp then (false, fm)
  else if rotationScale.any (fun matRow => decide (matRow.length ≠ f.ncomp)) then (false, fm)
  else if f.coordSys ≠ CoordinateSystemType.rectangularCartesian then (false, fm)
  else if f.isFiniteElement = false then (false, fm)
  else
    ((sweepNodes rotationScale offset f.name fm.nodes true).2,
     { nodes := (sweepNodes rotationScale offset f.name fm.nodes true).1 })

/-- The slot-level result of a successful transform pass, used to state
what the sweep does to each slot: a slot whose read and write both succeed
gets the transformed values, any other slot is unchanged. -/
def transformSlotFn (rotationScale : List (List ℚ)) (offset : List ℚ) (d : DerivLabel)
    (s : NodeSlot) : NodeSlot :=
  if s.readOk && s.writeOk then
    { s with values :=
        if d = DerivLabel.value then
          vectorops.add (vectorops.matrixvectormult rotationScale s.values) offset
        else vectorops.matrixvectormult rotationScale s.values }
  else s

/-- Whether both the read and the write of one slot succeed. -/
def slotSucc (s : NodeSlot) : Bool := s.readOk && s.writeOk

/-- Whether every get/set of the field's parameters on one node succeeds:
for each derivative label, all version slots of its first entry. -/
def paramsSucc (ps : NodeParams) : Bool :=
  derivOrder.all (fun d => ((alookup d ps).getD []).all slotSucc)

/-- Whether every get/set of the field's parameters succeeds on a node. -/
def nodeSucc (fname : String) (n : ZNode) : Bool :=
  paramsSucc ((alookup fname n.fieldParams).getD [])

/-- The state-only effect of the derivative step: the first entry of the
label has every slot transformed. -/
def transformDerivFn (rotationScale : List (List ℚ)) (offset : List ℚ) (d : DerivLabel) :
    NodeParams → NodeParams
  | [] => []
  | (d0, ss) :: rest =>
    if d0 = d then (d0, ss.map (transformSlotFn rotationScale offset d)) :: rest
    else (d0, ss) :: transformDerivFn rotationScale offset d rest

/-- The state-only effect of the derivative loop on a node's parameters
for the field. -/
def transformParamsFn (rotationScale : List (List ℚ)) (offset : List ℚ)
    (ps : NodeParams) : NodeParams :=
  derivOrder.foldl (fun acc d => transformDerivFn rotationScale offset d acc) ps

/-- The state-only effect of the sweep on a node's field entries: only the
first entry of the transformed field is touched. -/
def transformNodeEntryFn (rotationScale : List (List ℚ)) (offset : List ℚ) (fname : String) :
    List (String × NodeParams) → List (String × NodeParams)
  | [] => []
  | (g, ps) :: rest =>
    if g = fname then (g, transformParamsFn rotationScale offset ps) :: rest
    else (g, ps) :: transformNodeEntryFn rotationScale offset fname rest

/-- The pure (state-only) effect of the sweep on a single node. -/
def transformNodeFn (rotationScale : List (List ℚ)) (offset : List ℚ) (fname : String)
    (n : ZNode) : ZNode :=
  { n with fieldParams := transformNodeEntryFn rotationScale offset fname n.fieldParams }

/-- The identity matrix as a list of rows. -/
def identityMatrix : ℕ → List (List ℚ)
  | 0 => []
  | n + 1 => (1 :: List.replicate n 0) :: (identityMatrix n).map (fun row => 0 :: row)

/-- The zero vector. -/
def zeroVector (n : ℕ) : List ℚ := List.replicate n 0

/-- Modelled from the spec: the aggregate node-set minimum field over the
coordinates of the nodes, in iteration order.  Evaluation fails (first
component false) when the node set is empty, as the spec states, and
otherwise accumulates a per-component running minimum. -/
def fieldNodesetMinimum (nodeCoords : List (List ℚ)) : Bool × List ℚ :=
  match nodeCoords with
  | [] => (false, [])
  | c :: rest => (true, rest.foldl (fun acc x => List.zipWith min acc x) c)

/-- Modelled from the spec: the aggregate node-set maximum field,
per-component running maximum, failing on an empty node set. -/
def fieldNodesetMaximum (nodeCoords : List (List ℚ)) : Bool × List ℚ :=
  match nodeCoords with
  | [] => (false, [])
  | c :: rest => (true, rest.foldl (fun acc x => List.zipWith max acc x) c)

/-- Modelled from the spec: the aggregate node-set mean field,
per-component running sum divided by the node count, failing on an empty
node set. -/
def fieldNodesetMean (nodeCoords : List (List ℚ)) : Bool × List ℚ :=
  match nodeCoords with
  | [] => (false, [])
  | c :: rest =>
    (true, (rest.foldl (fun acc x => List.zipWith (fun a b => a + b) acc x) c).map
      (fun q => q / ((rest.length + 1 : ℕ) : ℚ)))

/-- evaluateNodesetCoordinatesRange of the source: evaluate the node-set
minimum and maximum fields and assert each result is RESULT_OK; a failing
assertion raises, embedded as an error result. -/
def evaluateNodesetCoordinatesRange (nodeCoords : List (List ℚ)) :
    Except String (List ℚ × List ℚ) :=
  let mn := fieldNodesetMinimum nodeCoords
  if mn.1 = false then Except.error ("AssertionError")
  else
    let mx := fieldNodesetMaximum nodeCoords
    if mx.1 = false then Except.error ("AssertionError")
    else Except.ok (mn.2, mx.2)

/-- evaluateNodesetMeanCoordinates of the source: evaluate the node-set
mean field and assert the result is RESULT_OK; a failing assertion raises,
embedded as an error result. -/
def evaluateNodesetMeanCoordinates (nodeCoords : List (List ℚ)) :
    Except String (List ℚ) :=
  let mean := fieldNodesetMean nodeCoords
  if mean.1 = false then Except.error ("AssertionError") else Except.ok mean.2

/-- A node as findNodeWithName sees it: its identifier and the value its
name field evaluates to through the cache (none when the string evaluation
fails, which a comparison with a concrete name never matches). -/
structure NamedNode : Type where
  id : ℤ
  name : Option String
deriving DecidableEq

/-- The scan loop of findNodeWithName, carrying the unique match found so
far: a second match returns the no-unique-match result immediately. -/
def findNodeLoop (name : String) : List NamedNode → Option NamedNode → Option NamedNode
  | [], found => found
  | n :: rest, found =>
    if n.name = some name then
      match found with
      | some _ => none
      | none => findNodeLoop name rest (some n)
    else findNodeLoop name rest found

/-- findNodeWithName of the source: scan every node in iteration order and
return the unique node whose name field evaluates to the given name, or
none when zero or several nodes match. -/
def findNodeWithName (nodes : List NamedNode) (name : String) : Option NamedNode :=
  findNodeLoop name nodes none

/-- A node as getNodeNameCentres sees it: the evaluated name (none when
the string evaluation fails), whether the coordinate evaluation returned
RESULT_OK, and the evaluated coordinates. -/
structure CNode : Type where
  name : Option String
  coordsResultOk : Bool
  coords : List ℚ
deriving DecidableEq

/-- Python truthiness of the evaluated name: false for an undefined name
and for the empty string. -/
def pythonTruthyName : Option String → Bool
  | none => false
  | some s => decide (s ≠ "")

/-- Whether getNodeNameCentres counts a node: its name is truthy and its
coordinate evaluation succeeded. -/
def validCNode (n : CNode) : Bool := pythonTruthyName n.name && n.coordsResultOk

/-- The accumulation loop of getNodeNameCentres.  A node with a falsy name
or failed coordinate evaluation is skipped.  The first node of a name
inserts the record (coordinates, 1) into the insertion-ordered dict; a
second node of the same name executes nameRecord[1] += 1 on that record,
which is a Python tuple, so the call raises TypeError, embedded as an
error result. -/
def nameRecordsLoop : List CNode → List (String × (List ℚ × ℕ)) →
    Except String (List (String × (List ℚ × ℕ)))
  | [], recs => Except.ok recs
  | node :: rest, recs =>
    if validCNode node then
      match alookup (node.name.getD "") recs with
      | some _ => Except.error ("TypeError: tuple does not support item assignment")
      | none => nameRecordsLoop rest (recs ++ [(node.name.getD "", (node.coords, 1))])
    else nameRecordsLoop rest recs

/-- Multiply the first k components of a list by a scalar, as the source's
loop over range(componentsCount) does. -/
def scaleComponents : ℕ → ℚ → List ℚ → List ℚ
  | 0, _, l => l
  | _ + 1, _, [] => []
  | k + 1, q, x :: xs => (x * q) :: scaleComponents k q xs

/-- The division step of getNodeNameCentres on one name record: a count
above one scales the accumulated coordinates by its reciprocal. -/
def centreOf (ncomp : ℕ) (cv : List ℚ × ℕ) : List ℚ :=
  if cv.2 > 1 then scaleComponents ncomp (1 / (cv.2 : ℚ)) cv.1 else cv.1

/-- The final phase of getNodeNameCentres: divide each accumulated centre
by its count. -/
def finishCentres (ncomp : ℕ) (recs : List (String × (List ℚ × ℕ))) :
    List (String × List ℚ) :=
  recs.map (fun r => (r.1, centreOf ncomp r.2))

/-- getNodeNameCentres of the source: accumulate per-name coordinate sums
and counts over the nodes, then divide by the counts. -/
def getNodeNameCentres (ncomp : ℕ) (nodes : List CNode) :
    Except String (List (String × List ℚ)) :=
  (nameRecordsLoop nodes []).map (finishCentres ncomp)

/-- The node store as createNodes sees it: the created nodes in creation
order, each with its identifier and assigned coordinates. -/
structure NodeStore : Type where
  nodes : List (ℕ × List ℚ)
deriving DecidableEq

/-- The identifiers in use in a node store. -/
def usedIds (store : NodeStore) : List ℕ := store.nodes.map Prod.fst

/-- Modelled from the spec: the smallest unused identifier that is at
least 0 (it always lies among 0 .. number of used identifiers). -/
def smallestUnusedId (used : List ℕ) : ℕ :=
  ((List.range (used.length + 1)).filter (fun i => decide (i ∉ used))).headD 0

/-- Modelled from the spec: createNode(idHint, template) of the node
store.  An idHint of -1 assigns the smallest unused identifier at least 0;
an idHint already in use fails with DuplicateIdentifierError.  The new
node's parameters start empty until assigned. -/
def createNode (store : NodeStore) (idHint : ℤ) : Except String (ℕ × NodeStore) :=
  if idHint = -1 then
    let newId := smallestUnusedId (usedIds store)
    Except.ok (newId, { nodes := store.nodes ++ [(newId, [])] })
  else if (usedIds store).contains idHint.toNat then
    Except.error ("DuplicateIdentifierError")
  else Except.ok (idHint.toNat, { nodes := store.nodes ++ [(idHint.toNat, [])] })

/-- Modelled from the spec: assignReal through a cache bound to the node
with the given identifier sets that node's coordinates. -/
def assignReal (store : NodeStore) (nid : ℕ) (coords : List ℚ) : NodeStore :=
  { nodes := store.nodes.map (fun p => if p.1 = nid then (p.1, coords) else p) }

/-- The creation loop of createNodes: one createNode with identifier hint
-1 followed by an assignReal per coordinate. -/
def createNodesLoop (store : NodeStore) : List (List ℚ) → Except String NodeStore
  | [] => Except.ok store
  | c :: rest =>
    match createNode store (-1) with
    | Except.error e => Except.error e
    | Except.ok p => createNodesLoop (assignReal p.2 p.1 c) rest

/-- createNodes of the source: assert the field casts to finite element
(a failing assertion raises, embedded as an error result), then create one
node per coordinate with identifier hint -1 and assign its coordinates. -/
def createNodes (isFiniteElement : Bool) (store : NodeStore)
    (nodeCoordinateSet : List (List ℚ)) : Except String NodeStore :=
  if isFiniteElement = false then Except.error ("AssertionError")
  else createNodesLoop store nodeCoordinateSet

/-!
Theorems.  Helper lemmas first, then one theorem per claim (with its
witness or counterexample where required).
-/

theorem alookup_append_of_none {α β : Type} [DecidableEq α] (k : α)
    (l1 l2 : List (α × β)) (h : alookup k l1 = none) :
    alookup k (l1 ++ l2) = alookup k l2 := by
  induction l1 with
  | nil => rfl
  | cons p rest ih =>
    simp only [alookup] at h ⊢
    by_cases hk : p.1 = k
    · rw [if_pos hk] at h
      exact absurd h (by simp)
    · rw [if_neg hk] at h ⊢
      exact ih h

theorem alookup_mem {α β : Type} [DecidableEq α] (k : α) (b : β)
    (l : List (α × β)) (h : alookup k l = some b) : (k, b) ∈ l := by
  induction l with
  | nil => simp [alookup] at h
  | cons p rest ih =>
    simp only [alookup] at h
    by_cases hk : p.1 = k
    · rw [if_pos hk] at h
      cases p
      simp only [Option.some.injEq] at h
      subst hk
      subst h
      exact List.mem_cons_self _ _
    · rw [if_neg hk] at h
      exact List.mem_cons_of_mem _ (ih h)

/-- Claim C4 counterexample: on the empty nodeset the exposed aggregate
evaluators do not return an all-undefined result; the failing assertion on
the Zinc result code raises an error instead. -/
theorem evaluateNodeset_empty_claim_false :
    evaluateNodesetCoordinatesRange [] = Except.error ("AssertionError")
    ∧ evaluateNodesetMeanCoordinates [] = Except.error ("AssertionError") :=
  ⟨rfl, rfl⟩

/-- Claim C4 (amended): over an empty nodeset the underlying aggregate
minimum, maximum and mean field evaluations all report failure (no numeric
error), and the wrappers evaluateNodesetCoordinatesRange and
evaluateNodesetMeanCoordinates then fail by raising an assertion error
rather than returning a result. -/
theorem evaluateNodeset_empty_fails :
    (fieldNodesetMinimum []).1 = false
    ∧ (fieldNodesetMaximum []).1 = false
    ∧ (fieldNodesetMean []).1 = false
    ∧ evaluateNodesetCoordinatesRange [] = Except.error ("AssertionError")
    ∧ evaluateNodesetMeanCoordinates [] = Except.error ("AssertionError") :=
  ⟨rfl, rfl, rfl, rfl, rfl⟩

/-- Claim C6: on nodes named A, A, B with coordinates [0,0], [2,0], [5,5]
the claim expects the result to map A to [1,0] and B to [5,5]; the code
instead raises a TypeError at the second node named A, because the
per-name count is stored in an immutable tuple and nameRecord[1] += 1 is
an item assignment on that tuple. -/
theorem getNodeNameCentres_dup_name_raises :
    getNodeNameCentres 2
      [{ name := some ("A"), coordsResultOk := true, coords := [0, 0] },
       { name := some ("A"), coordsResultOk := true, coords := [2, 0] },
       { name := some ("B"), coordsResultOk := true, coords := [5, 5] }]
      = Except.error ("TypeError: tuple does not support item assignment") := by
  rfl

theorem findNodeLoop_some (name : String) (m : NamedNode) :
    ∀ rest : List NamedNode,
      findNodeLoop name rest (some m)
        = if (rest.filter (fun n => decide (n.name = some name))).length = 0
          then some m else none := by
  intro rest
  induction rest with
  | nil => simp [findNodeLoop]
  | cons n rest ih =>
    by_cases hn : n.name = some name
    · simp [findNodeLoop, hn, List.filter]
    · simp [findNodeLoop, hn, List.filter, ih]

/-- Claim C5: findNodeWithName returns the unique node whose name field
evaluates to the given name when exactly one node matches, and returns the
no-unique-match result (none) when zero nodes or two or more nodes
match. -/
theorem findNodeWithName_unique (nodes : List NamedNode) (name : String) :
    findNodeWithName nodes name
      = if (nodes.filter (fun n => decide (n.name = some name))).length = 1
        then (nodes.filter (fun n => decide (n.name = some name))).head?
        else none := by
  unfold findNodeWithName
  induction nodes with
  | nil => simp [findNodeLoop]
  | cons n rest ih =>
    by_cases hn : n.name = some name
    · have hl : findNodeLoop name (n :: rest) none = findNodeLoop name rest (some n) := by
        simp [findNodeLoop, hn]
      have hf : (n :: rest).filter (fun x => decide (x.name = some name))
          = n :: rest.filter (fun x => decide (x.name = some name)) := by
        simp [List.filter_cons, hn]
      rw [hl, findNodeLoop_some, hf]
      by_cases h0 : (rest.filter (fun x => decide (x.name = some name))).length = 0
      · simp [h0]
      · rw [if_neg h0, List.length_cons, if_neg (by omega)]
    · have hl : findNodeLoop name (n :: rest) none = findNodeLoop name rest none := by
        simp [findNodeLoop, hn]
      have hf : (n :: rest).filter (fun x => decide (x.name = some name))
          = rest.filter (fun x => decide (x.name = some name)) := by
        simp [List.filter_cons, hn]
      rw [hl, hf]
      exact ih

theorem usedIds_assignReal (store : NodeStore) (nid : ℕ) (coords : List ℚ) :
    usedIds (assignReal store nid coords) = usedIds store := by
  unfold usedIds assignReal
  simp only [List.map_map]
  apply List.map_congr_left
  intro p _
  by_cases h : p.1 = nid <;> simp [h, Function.comp]

theorem smallestUnusedId_range (k : ℕ) :
    smallestUnusedId (List.range k) = k := by
  unfold smallestUnusedId
  rw [List.length_range, List.range_succ, List.filter_append]
  have h1 : (List.range k).filter (fun i => decide (i ∉ List.range k)) = [] := by
    rw [List.filter_eq_nil_iff]
    intro a ha
    simp [ha]
  have h2 : [k].filter (fun i => decide (i ∉ List.range k)) = [k] := by
    simp [List.filter_cons, List.mem_range]
  rw [h1, h2]
  rfl

theorem createNodesLoop_range (coords : List (List ℚ)) :
    ∀ (store : NodeStore) (k : ℕ), usedIds store = List.range k →
      ∃ out, createNodesLoop store coords = Except.ok out
        ∧ usedIds out = List.range (k + coords.length) := by
  induction coords with
  | nil =>
    intro store k hk
    exact ⟨store, rfl, by simpa using hk⟩
  | cons c rest ih =>
    intro store k hk
    have hid : smallestUnusedId (usedIds store) = k := by rw [hk, smallestUnusedId_range]
    have hstep : createNode store (-1)
        = Except.ok (k, { nodes := store.nodes ++ [(k, [])] }) := by
      unfold createNode
      rw [if_pos rfl, hid]
    have hused : usedIds (assignReal { nodes := store.nodes ++ [(k, [])] } k c)
        = List.range (k + 1) := by
      rw [usedIds_assignReal]
      unfold usedIds at hk ⊢
      simp only [List.map_append, hk, List.map_cons, List.map_nil]
      exact (List.range_succ k).symm
    obtain ⟨out, hout, hids⟩ := ih (assignReal { nodes := store.nodes ++ [(k, [])] } k c) (k + 1) hused
    refine ⟨out, ?_, ?_⟩
    · unfold createNodesLoop
      rw [hstep]
      exact hout
    · rw [hids]
      congr 1
      simp [List.length_cons]
      omega

/-- Claim C8: creating one node per coordinate with identifier hint -1
against a store that starts empty, as createNodes does, yields distinct
node identifiers equal to 0 .. N-1, each the smallest unused identifier at
least 0. -/
theorem createNodes_ids (coords : List (List ℚ)) :
    ∃ out, createNodes true { nodes := [] } coords = Except.ok out
      ∧ usedIds out = List.range coords.length := by
  have h0 : usedIds { nodes := ([] : List (ℕ × List ℚ)) } = List.range 0 := rfl
  obtain ⟨out, hout, hids⟩ := createNodesLoop_range coords { nodes := [] } 0 h0
  refine ⟨out, ?_, ?_⟩
  · unfold createNodes
    simpa using hout
  · simpa using hids

theorem nameRecordsLoop_filter (nodes : List CNode) :
    ∀ recs, nameRecordsLoop nodes recs = nameRecordsLoop (nodes.filter validCNode) recs := by
  induction nodes with
  | nil => intro recs; rfl
  | cons node rest ih =>
    intro recs
    by_cases hv : validCNode node = true
    · rw [List.filter_cons_of_pos hv]
      unfold nameRecordsLoop
      rw [if_pos hv, if_pos hv]
      cases alookup (node.name.getD "") recs with
      | none => exact ih _
      | some r => rfl
    · rw [List.filter_cons_of_neg hv]
      have hl : nameRecordsLoop (node :: rest) recs = nameRecordsLoop rest recs := by
        conv_lhs => unfold nameRecordsLoop
        rw [if_neg hv]
      rw [hl]
      exact ih recs

theorem alookup_finishCentres (ncomp : ℕ) (nm : String)
    (recs : List (String × (List ℚ × ℕ))) :
    alookup nm (finishCentres ncomp recs) = (alookup nm recs).map (centreOf ncomp) := by
  induction recs with
  | nil => rfl
  | cons r rest ih =>
    unfold finishCentres at ih ⊢
    simp only [List.map_cons, alookup]
    by_cases h : r.1 = nm
    · rw [if_pos h, if_pos h]
      rfl
    · rw [if_neg h, if_neg h]
      exact ih

theorem nameRecordsLoop_lookup_none (nm : String) (nodes : List CNode) :
    ∀ recs out,
      (∀ node ∈ nodes, node.name = some nm → validCNode node = false) →
      alookup nm recs = none →
      nameRecordsLoop nodes recs = Except.ok out →
      alookup nm out = none := by
  induction nodes with
  | nil =>
    intro recs out _ hrecs hloop
    unfold nameRecordsLoop at hloop
    cases hloop
    exact hrecs
  | cons node rest ih =>
    intro recs out hall hrecs hloop
    unfold nameRecordsLoop at hloop
    by_cases hv : validCNode node = true
    · rw [if_pos hv] at hloop
      cases hfind : alookup (node.name.getD "") recs with
      | some r => rw [hfind] at hloop; cases hloop
      | none =>
        rw [hfind] at hloop
        have hkey : node.name.getD "" ≠ nm := by
          intro hkeq
          have htruthy : pythonTruthyName node.name = true := by
            have := hv
            unfold validCNode at this
            exact (Bool.and_eq_true _ _ |>.mp this).1
          cases hname : node.name with
          | none => rw [hname] at htruthy; simp [pythonTruthyName] at htruthy
          | some s =>
            rw [hname] at hkeq
            simp only [Option.getD_some] at hkeq
            subst hkeq
            have := hall node (List.mem_cons_self _ _) hname
            rw [this] at hv
            cases hv
        have hrecs2 : alookup nm (recs ++ [(node.name.getD "", (node.coords, 1))]) = none := by
          rw [alookup_append_of_none nm recs _ hrecs]
          simp [alookup, hkey]
        exact ih _ out (fun x hx => hall x (List.mem_cons_of_mem _ hx)) hrecs2 hloop
    · rw [if_neg hv] at hloop
      exact ih recs out (fun x hx => hall x (List.mem_cons_of_mem _ hx)) hrecs hloop

/-- Claim C10: getNodeNameCentres silently excludes every node with a
falsy (empty or undefined) name and every node whose coordinate evaluation
did not succeed: the result equals the result over the valid nodes alone,
and whenever a mapping is returned, a name carried only by excluded nodes
is absent from it. -/
theorem getNodeNameCentres_excludes (ncomp : ℕ) (nodes : List CNode) (nm : String)
    (hall : ∀ node ∈ nodes, node.name = some nm → validCNode node = false) :
    getNodeNameCentres ncomp nodes = getNodeNameCentres ncomp (nodes.filter validCNode)
    ∧ ∀ m, getNodeNameCentres ncomp nodes = Except.ok m → alookup nm m = none := by
  constructor
  · unfold getNodeNameCentres
    rw [nameRecordsLoop_filter]
  · intro m hm
    unfold getNodeNameCentres at hm
    cases hloop : nameRecordsLoop nodes [] with
    | error e => rw [hloop] at hm; cases hm
    | ok recs =>
      rw [hloop] at hm
      simp only [Except.map] at hm
      cases hm
      rw [alookup_finishCentres]
      rw [nameRecordsLoop_lookup_none nm nodes [] recs hall rfl hloop]
      rfl

/-- Claim C10 witness: a node with an empty name, a node named C whose
coordinate evaluation failed, and a node with an undefined name are all
excluded, and the name C carried only by such a node is absent from the
returned mapping. -/
theorem getNodeNameCentres_excludes_witness :
    getNodeNameCentres 1
        [{ name := some (""), coordsResultOk := true, coords := [1] },
         { name := some ("C"), coordsResultOk := false, coords := [2] },
         { name := none, coordsResultOk := true, coords := [3] }]
      = getNodeNameCentres 1
        (List.filter validCNode
          [{ name := some (""), coordsResultOk := true, coords := [1] },
           { name := some ("C"), coordsResultOk := false, coords := [2] },
           { name := none, coordsResultOk := true, coords := [3] }])
    ∧ ∀ m, getNodeNameCentres 1
        [{ name := some (""), coordsResultOk := true, coords := [1] },
         { name := some ("C"), coordsResultOk := false, coords := [2] },
         { name := none, coordsResultOk := true, coords := [3] }]
      = Except.ok m → alookup ("C") m = none :=
  getNodeNameCentres_excludes 1
    [{ name := some (""), coordsResultOk := true, coords := [1] },
     { name := some ("C"), coordsResultOk := false, coords := [2] },
     { name := none, coordsResultOk := true, coords := [3] }]
    ("C") (by decide)

theorem transformSlot_eq (rs : List (List ℚ)) (off : List ℚ) (d : DerivLabel) (s : NodeSlot) :
    transformSlot rs off d s = (slotSucc s, transformSlotFn rs off d s) := by
  unfold transformSlot transformSlotFn slotSucc
  cases hr : s.readOk with
  | false => simp
  | true =>
    cases hw : s.writeOk with
    | false => simp
    | true => simp

theorem transformSlots_eq (rs : List (List ℚ)) (off : List ℚ) (d : DerivLabel) :
    ∀ (ss : List NodeSlot) (ok : Bool),
      transformSlots rs off d ss ok
        = (ss.map (transformSlotFn rs off d), ok && ss.all slotSucc) := by
  intro ss
  induction ss with
  | nil => intro ok; simp [transformSlots]
  | cons s rest ih =>
    intro ok
    simp only [transformSlots, transformSlot_eq, ih, List.map_cons, List.all_cons]
    simp [Bool.and_assoc]

theorem transformDeriv_eq (rs : List (List ℚ)) (off : List ℚ) (d : DerivLabel) :
    ∀ (ps : NodeParams) (ok : Bool),
      transformDeriv rs off d ps ok
        = (transformDerivFn rs off d ps, ok && ((alookup d ps).getD []).all slotSucc) := by
  intro ps
  induction ps with
  | nil => intro ok; simp [transformDeriv, transformDerivFn, alookup]
  | cons e rest ih =>
    intro ok
    obtain ⟨d0, ss⟩ := e
    by_cases h : d0 = d
    · unfold transformDeriv transformDerivFn
      rw [if_pos h, if_pos h, transformSlots_eq]
      simp [alookup, h]
    · unfold transformDeriv transformDerivFn
      rw [if_neg h, if_neg h, ih]
      simp [alookup, h]

theorem slotSucc_transformSlotFn (rs : List (List ℚ)) (off : List ℚ) (d : DerivLabel)
    (s : NodeSlot) : slotSucc (transformSlotFn rs off d s) = slotSucc s := by
  unfold transformSlotFn slotSucc
  by_cases h : (s.readOk && s.writeOk) = true
  · rw [if_pos h]
  · rw [if_neg h]

theorem all_slotSucc_map (rs : List (List ℚ)) (off : List ℚ) (d : DerivLabel)
    (ss : List NodeSlot) :
    (ss.map (transformSlotFn rs off d)).all slotSucc = ss.all slotSucc := by
  induction ss with
  | nil => rfl
  | cons s rest ih => simp [List.all_cons, slotSucc_transformSlotFn, ih]

theorem alookup_transformDerivFn_same (rs : List (List ℚ)) (off : List ℚ) (d : DerivLabel) :
    ∀ ps : NodeParams,
      alookup d (transformDerivFn rs off d ps)
        = (alookup d ps).map (List.map (transformSlotFn rs off d)) := by
  intro ps
  induction ps with
  | nil => rfl
  | cons e rest ih =>
    obtain ⟨d0, ss⟩ := e
    by_cases h : d0 = d
    · unfold transformDerivFn
      rw [if_pos h]
      simp [alookup, h]
    · unfold transformDerivFn
      rw [if_neg h]
      simp [alookup, h, ih]

theorem alookup_transformDerivFn_ne (rs : List (List ℚ)) (off : List ℚ)
    (d0 d1 : DerivLabel) (hne : d1 ≠ d0) :
    ∀ ps : NodeParams,
      alookup d1 (transformDerivFn rs off d0 ps) = alookup d1 ps := by
  intro ps
  induction ps with
  | nil => rfl
  | cons e rest ih =>
    obtain ⟨d2, ss⟩ := e
    by_cases h : d2 = d0
    · unfold transformDerivFn
      rw [if_pos h]
      have h2 : d2 ≠ d1 := by rw [h]; exact fun hx => hne hx.symm
      simp [alookup, h2]
    · unfold transformDerivFn
      rw [if_neg h]
      simp only [alookup]
      by_cases h2 : d2 = d1
      · rw [if_pos h2, if_pos h2]
      · rw [if_neg h2, if_neg h2]
        exact ih

theorem entry_all_transformDerivFn (rs : List (List ℚ)) (off : List ℚ)
    (d0 d : DerivLabel) (ps : NodeParams) :
    ((alookup d (transformDerivFn rs off d0 ps)).getD []).all slotSucc
      = ((alookup d ps).getD []).all slotSucc := by
  by_cases h : d = d0
  · subst h
    rw [alookup_transformDerivFn_same]
    cases alookup d ps with
    | none => rfl
    | some ss =>
      simp only [Option.map_some', Option.getD_some]
      exact all_slotSucc_map rs off d ss
  · rw [alookup_transformDerivFn_ne rs off d0 d h]

theorem foldl_transformDeriv_eq (rs : List (List ℚ)) (off : List ℚ) :
    ∀ (L : List DerivLabel) (ps : NodeParams) (ok : Bool),
      L.foldl (fun acc d => transformDeriv rs off d acc.1 acc.2) (ps, ok)
        = (L.foldl (fun acc d => transformDerivFn rs off d acc) ps,
           ok && L.all (fun d => ((alookup d ps).getD []).all slotSucc)) := by
  intro L
  induction L with
  | nil => intro ps ok; simp
  | cons hd tl ih =>
    intro ps ok
    simp only [List.foldl_cons]
    rw [transformDeriv_eq, ih]
    have hfun : (fun d => ((alookup d (transformDerivFn rs off hd ps)).getD []).all slotSucc)
        = (fun d => ((alookup d ps).getD []).all slotSucc) :=
      funext (fun d => entry_all_transformDerivFn rs off hd d ps)
    rw [hfun, List.all_cons, ← Bool.and_assoc]

theorem transformParams_eq (rs : List (List ℚ)) (off : List ℚ) (ps : NodeParams) (ok : Bool) :
    transformParams rs off ps ok = (transformParamsFn rs off ps, ok && paramsSucc ps) := by
  unfold transformParams transformParamsFn paramsSucc
  exact foldl_transformDeriv_eq rs off derivOrder ps ok

theorem mem_derivOrder (d : DerivLabel) : d ∈ derivOrder := by
  cases d <;> simp [derivOrder]

theorem nodup_derivOrder : derivOrder.Nodup := by decide

theorem alookup_foldl_transformDerivFn_not_mem (rs : List (List ℚ)) (off : List ℚ) :
    ∀ (L : List DerivLabel) (ps : NodeParams) (d : DerivLabel), d ∉ L →
      alookup d (L.foldl (fun acc x => transformDerivFn rs off x acc) ps) = alookup d ps := by
  intro L
  induction L with
  | nil => intro ps d _; rfl
  | cons hd tl ih =>
    intro ps d hmem
    simp only [List.foldl_cons]
    have h1 : d ∉ tl := fun h => hmem (List.mem_cons_of_mem _ h)
    have h2 : d ≠ hd := fun h => hmem (h ▸ List.mem_cons_self _ _)
    rw [ih _ d h1, alookup_transformDerivFn_ne rs off hd d h2]

theorem alookup_foldl_transformDerivFn_mem (rs : List (List ℚ)) (off : List ℚ) :
    ∀ (L : List DerivLabel), L.Nodup → ∀ (ps : NodeParams) (d : DerivLabel), d ∈ L →
      alookup d (L.foldl (fun acc x => transformDerivFn rs off x acc) ps)
        = (alookup d ps).map (List.map (transformSlotFn rs off d)) := by
  intro L
  induction L with
  | nil => intro _ ps d h; cases h
  | cons hd tl ih =>
    intro hnd ps d hdm
    simp only [List.foldl_cons]
    by_cases h : d = hd
    · subst h
      have hnotin : d ∉ tl := (List.nodup_cons.mp hnd).1
      rw [alookup_foldl_transformDerivFn_not_mem rs off tl _ d hnotin,
          alookup_transformDerivFn_same]
    · have hmem : d ∈ tl := (List.mem_cons.mp hdm).resolve_left h
      rw [ih (List.nodup_cons.mp hnd).2 _ d hmem, alookup_transformDerivFn_ne rs off hd d h]

theorem alookup_transformParamsFn (rs : List (List ℚ)) (off : List ℚ)
    (d : DerivLabel) (ps : NodeParams) :
    alookup d (transformParamsFn rs off ps)
      = (alookup d ps).map (List.map (transformSlotFn rs off d)) := by
  unfold transformParamsFn
  exact alookup_foldl_transformDerivFn_mem rs off derivOrder nodup_derivOrder ps d
    (mem_derivOrder d)

theorem paramsSucc_nil : paramsSucc ([] : NodeParams) = true := rfl

theorem transformNodeEntry_eq (rs : List (List ℚ)) (off : List ℚ) (fname : String) :
    ∀ (fps : List (String × NodeParams)) (ok : Bool),
      transformNodeEntry rs off fname fps ok
        = (transformNodeEntryFn rs off fname fps,
           ok && paramsSucc ((alookup fname fps).getD [])) := by
  intro fps
  induction fps with
  | nil =>
    intro ok
    simp [transformNodeEntry, transformNodeEntryFn, alookup, paramsSucc_nil]
  | cons e rest ih =>
    intro ok
    obtain ⟨g, ps⟩ := e
    by_cases h : g = fname
    · unfold transformNodeEntry transformNodeEntryFn
      rw [if_pos h, if_pos h, transformParams_eq]
      simp [alookup, h]
    · unfold transformNodeEntry transformNodeEntryFn
      rw [if_neg h, if_neg h, ih]
      simp [alookup, h]

theorem sweepNodes_eq (rs : List (List ℚ)) (off : List ℚ) (fname : String) :
    ∀ (nodes : List ZNode) (ok : Bool),
      sweepNodes rs off fname nodes ok
        = (nodes.map (transformNodeFn rs off fname), ok && nodes.all (nodeSucc fname)) := by
  intro nodes
  induction nodes with
  | nil => intro ok; simp [sweepNodes]
  | cons n rest ih =>
    intro ok
    simp only [sweepNodes, transformNodeEntry_eq, ih, List.map_cons, List.all_cons]
    simp [transformNodeFn, nodeSucc, Bool.and_assoc]

theorem alookup_transformNodeEntryFn_same (rs : List (List ℚ)) (off : List ℚ)
    (fname : String) :
    ∀ fps : List (String × NodeParams),
      alookup fname (transformNodeEntryFn rs off fname fps)
        = (alookup fname fps).map (transformParamsFn rs off) := by
  intro fps
  induction fps with
  | nil => rfl
  | cons e rest ih =>
    obtain ⟨g, ps⟩ := e
    by_cases h : g = fname
    · unfold transformNodeEntryFn
      rw [if_pos h]
      simp [alookup, h]
    · unfold transformNodeEntryFn
      rw [if_neg h]
      simp [alookup, h, ih]

theorem alookup_transformNodeEntryFn_ne (rs : List (List ℚ)) (off : List ℚ)
    (fname g : String) (hne : g ≠ fname) :
    ∀ fps : List (String × NodeParams),
      alookup g (transformNodeEntryFn rs off fname fps) = alookup g fps := by
  intro fps
  induction fps with
  | nil => rfl
  | cons e rest ih =>
    obtain ⟨g0, ps⟩ := e
    by_cases h : g0 = fname
    · unfold transformNodeEntryFn
      rw [if_pos h]
      have h2 : g0 ≠ g := by rw [h]; exact fun hx => hne hx.symm
      simp [alookup, h2]
    · unfold transformNodeEntryFn
      rw [if_neg h]
      simp only [alookup]
      by_cases h2 : g0 = g
      · rw [if_pos h2, if_pos h2]
      · rw [if_neg h2, if_neg h2]
        exact ih

theorem transformCoordinates_valid (fm : Fieldmodule) (f : FieldInfo)
    (rs : List (List ℚ)) (off : List ℚ)
    (h2 : f.ncomp = 2 ∨ f.ncomp = 3)
    (hrs : rs.length = f.ncomp) (hoff : off.length = f.ncomp)
    (hrows : ∀ row ∈ rs, row.length = f.ncomp)
    (hcs : f.coordSys = CoordinateSystemType.rectangularCartesian)
    (hfe : f.isFiniteElement = true) :
    transformCoordinates fm f rs off
      = ((sweepNodes rs off f.name fm.nodes true).2,
         { nodes := (sweepNodes rs off f.name fm.nodes true).1 }) := by
  have h1 : ¬(f.ncomp ≠ 2 ∧ f.ncomp ≠ 3) := by
    rcases h2 with h | h <;> simp [h]
  have h3 : ¬(rs.length ≠ f.ncomp ∨ off.length ≠ f.ncomp) := by
    simp [hrs, hoff]
  have h4 : ¬(rs.any (fun matRow => decide (matRow.length ≠ f.ncomp)) = true) := by
    simp only [List.any_eq_true, decide_eq_true_eq]
    rintro ⟨row, hrow, hlen⟩
    exact hlen (hrows row hrow)
  have h5 : ¬(f.coordSys ≠ CoordinateSystemType.rectangularCartesian) := by
    simp [hcs]
  have h6 : ¬(f.isFiniteElement = false) := by simp [hfe]
  unfold transformCoordinates
  rw [if_neg h1, if_neg h3, if_neg h4, if_neg h5, if_neg h6]

theorem getSlot_transformNodeFn (rs : List (List ℚ)) (off : List ℚ) (fname : String)
    (d : DerivLabel) (v : ℕ) (n : ZNode) :
    getSlot (transformNodeFn rs off fname n) fname d v
      = (getSlot n fname d v).map (transformSlotFn rs off d) := by
  unfold transformNodeFn getSlot
  rw [alookup_transformNodeEntryFn_same]
  cases hps : alookup fname n.fieldParams with
  | none => rfl
  | some ps =>
    simp only [Option.map_some']
    rw [alookup_transformParamsFn]
    cases hss : alookup d ps with
    | none => rfl
    | some ss =>
      simp only [Option.map_some', List.getElem?_map]

/-- Claim C1: when validation passes, every (node, derivative, version)
parameter set whose read and write both succeed is written back as the
matrix-vector product of rotationScale with the old values, with the
offset added componentwise exactly when the derivative label is VALUE;
a non-VALUE derivative receives no offset. -/
theorem transformCoordinates_math (fm : Fieldmodule) (f : FieldInfo)
    (rs : List (List ℚ)) (off : List ℚ)
    (h2 : f.ncomp = 2 ∨ f.ncomp = 3)
    (hrs : rs.length = f.ncomp) (hoff : off.length = f.ncomp)
    (hrows : ∀ row ∈ rs, row.length = f.ncomp)
    (hcs : f.coordSys = CoordinateSystemType.rectangularCartesian)
    (hfe : f.isFiniteElement = true)
    (i : ℕ) (n : ZNode) (hn : fm.nodes[i]? = some n)
    (d : DerivLabel) (v : ℕ) (s : NodeSlot) (hs : getSlot n f.name d v = some s)
    (hr : s.readOk = true) (hw : s.writeOk = true) :
    ∃ n2, (transformCoordinates fm f rs off).2.nodes[i]? = some n2
      ∧ getSlot n2 f.name d v = some { s with values :=
          (if d = DerivLabel.value then
             vectorops.add (vectorops.matrixvectormult rs s.values) off
           else vectorops.matrixvectormult rs s.values) } := by
  rw [transformCoordinates_valid fm f rs off h2 hrs hoff hrows hcs hfe]
  rw [sweepNodes_eq]
  refine ⟨transformNodeFn rs off f.name n, ?_, ?_⟩
  · simp [List.getElem?_map, hn]
  · rw [getSlot_transformNodeFn, hs]
    simp only [Option.map_some']
    unfold transformSlotFn
    rw [hr, hw]
    simp

/-- Claim C1 witness: a concrete 2-component field with one node, a VALUE
slot and a D_DS1 slot; the VALUE slot is written back as the product plus
the offset. -/
theorem transformCoordinates_math_witness :
    ∃ n2,
      (transformCoordinates
          { nodes := [{ id := 0, fieldParams :=
              [("c", [(DerivLabel.value, [{ values := [1, 2], readOk := true, writeOk := true }])])] }] }
          { name := "c", ncomp := 2,
            coordSys := CoordinateSystemType.rectangularCartesian, isFiniteElement := true }
          [[0, 1], [1, 0]] [5, 7]).2.nodes[0]? = some n2
      ∧ getSlot n2 "c" DerivLabel.value 0
        = some { values := [7, 8], readOk := true, writeOk := true } := by
  obtain ⟨n2, ha, hb⟩ := transformCoordinates_math
    { nodes := [{ id := 0, fieldParams :=
        [("c", [(DerivLabel.value, [{ values := [1, 2], readOk := true, writeOk := true }])])] }] }
    { name := "c", ncomp := 2,
      coordSys := CoordinateSystemType.rectangularCartesian, isFiniteElement := true }
    [[0, 1], [1, 0]] [5, 7] (Or.inl rfl) rfl rfl (by decide) rfl rfl
    0 { id := 0, fieldParams :=
        [("c", [(DerivLabel.value, [{ values := [1, 2], readOk := true, writeOk := true }])])] }
    rfl DerivLabel.value 0 { values := [1, 2], readOk := true, writeOk := true } rfl rfl rfl
  refine ⟨n2, ha, ?_⟩
  rw [hb]
  simp [vectorops.add, vectorops.matrixvectormult, vectorops.dot]
  norm_num

/-- Claim C3: when validation passes, a failed read or write of a single
parameter set does not abort the sweep: the final state is the independent
per-node transform of every node (so every remaining node is still visited
and transformed), and the function returns true exactly when every
individual parameter get and set succeeded. -/
theorem transformCoordinates_sweep (fm : Fieldmodule) (f : FieldInfo)
    (rs : List (List ℚ)) (off : List ℚ)
    (h2 : f.ncomp = 2 ∨ f.ncomp = 3)
    (hrs : rs.length = f.ncomp) (hoff : off.length = f.ncomp)
    (hrows : ∀ row ∈ rs, row.length = f.ncomp)
    (hcs : f.coordSys = CoordinateSystemType.rectangularCartesian)
    (hfe : f.isFiniteElement = true) :
    (transformCoordinates fm f rs off).2.nodes
        = fm.nodes.map (transformNodeFn rs off f.name)
    ∧ ((transformCoordinates fm f rs off).1 = true
        ↔ ∀ n ∈ fm.nodes, nodeSucc f.name n = true) := by
  rw [transformCoordinates_valid fm f rs off h2 hrs hoff hrows hcs hfe, sweepNodes_eq]
  constructor
  · rfl
  · simp [List.all_eq_true]

/-- Claim C3 witness: a module with a failing read on the first node and a
working second node; the second node is still transformed and the overall
result is false because one read failed. -/
theorem transformCoordinates_sweep_witness :
    (transformCoordinates
        { nodes :=
            [{ id := 0, fieldParams :=
                [("c", [(DerivLabel.value, [{ values := [1, 2], readOk := false, writeOk := true }])])] },
             { id := 1, fieldParams :=
                [("c", [(DerivLabel.value, [{ values := [3, 4], readOk := true, writeOk := true }])])] }] }
        { name := "c", ncomp := 2,
          coordSys := CoordinateSystemType.rectangularCartesian, isFiniteElement := true }
        [[1, 0], [0, 1]] [0, 0]).2.nodes
      = List.map (transformNodeFn [[1, 0], [0, 1]] [0, 0] "c")
          [{ id := 0, fieldParams :=
              [("c", [(DerivLabel.value, [{ values := [1, 2], readOk := false, writeOk := true }])])] },
           { id := 1, fieldParams :=
              [("c", [(DerivLabel.value, [{ values := [3, 4], readOk := true, writeOk := true }])])] }]
    ∧ ((transformCoordinates
        { nodes :=
            [{ id := 0, fieldParams :=
                [("c", [(DerivLabel.value, [{ values := [1, 2], readOk := false, writeOk := true }])])] },
             { id := 1, fieldParams :=
                [("c", [(DerivLabel.value, [{ values := [3, 4], readOk := true, writeOk := true }])])] }] }
        { name := "c", ncomp := 2,
          coordSys := CoordinateSystemType.rectangularCartesian, isFiniteElement := true }
        [[1, 0], [0, 1]] [0, 0]).1 = true
      ↔ ∀ n ∈ [{ id := 0, fieldParams :=
              [("c", [(DerivLabel.value, [{ values := [1, 2], readOk := false, writeOk := true }])])] },
           ({ id := 1, fieldParams :=
              [("c", [(DerivLabel.value, [{ values := [3, 4], readOk := true, writeOk := true }])])] } : ZNode)],
          nodeSucc "c" n = true) :=
  transformCoordinates_sweep
    { nodes :=
        [{ id := 0, fieldParams :=
            [("c", [(DerivLabel.value, [{ values := [1, 2], readOk := false, writeOk := true }])])] },
         { id := 1, fieldParams :=
            [("c", [(DerivLabel.value, [{ values := [3, 4], readOk := true, writeOk := true }])])] }] }
    { name := "c", ncomp := 2,
      coordSys := CoordinateSystemType.rectangularCartesian, isFiniteElement := true }
    [[1, 0], [0, 1]] [0, 0] (Or.inl rfl) rfl rfl (by decide) rfl rfl

/-- Claim C2: whenever any precondition fails (component count not 2 or 3,
matrix not componentCount by componentCount, offset of the wrong length,
coordinate system not rectangular cartesian, or the field not
finite-element typed), transformCoordinates returns false and leaves the
state completely unchanged. -/
theorem transformCoordinates_invalid (fm : Fieldmodule) (f : FieldInfo)
    (rs : List (List ℚ)) (off : List ℚ)
    (h : (f.ncomp ≠ 2 ∧ f.ncomp ≠ 3)
      ∨ rs.length ≠ f.ncomp
      ∨ off.length ≠ f.ncomp
      ∨ (∃ row ∈ rs, row.length ≠ f.ncomp)
      ∨ f.coordSys ≠ CoordinateSystemType.rectangularCartesian
      ∨ f.isFiniteElement = false) :
    transformCoordinates fm f rs off = (false, fm) := by
  unfold transformCoordinates
  split_ifs with h1 h3 h4 h5 h6
  · rfl
  · rfl
  · rfl
  · rfl
  · rfl
  · exfalso
    rcases h with hc | hc | hc | hc | hc | hc
    · exact h1 hc
    · exact h3 (Or.inl hc)
    · exact h3 (Or.inr hc)
    · obtain ⟨row, hrow, hlen⟩ := hc
      exact h4 (List.any_eq_true.mpr ⟨row, hrow, by simpa using hlen⟩)
    · exact h5 hc
    · exact h6 hc

/-- Claim C2 witness: a 4-component field fails validation and the state
is returned unchanged. -/
theorem transformCoordinates_invalid_witness :
    transformCoordinates
        { nodes := [{ id := 0, fieldParams :=
            [("c", [(DerivLabel.value, [{ values := [1, 2, 3, 4], readOk := true, writeOk := true }])])] }] }
        { name := "c", ncomp := 4,
          coordSys := CoordinateSystemType.rectangularCartesian, isFiniteElement := true }
        [[1, 0, 0, 0], [0, 1, 0, 0], [0, 0, 1, 0], [0, 0, 0, 1]] [0, 0, 0, 0]
      = (false,
         { nodes := [{ id := 0, fieldParams :=
             [("c", [(DerivLabel.value, [{ values := [1, 2, 3, 4], readOk := true, writeOk := true }])])] }] }) :=
  transformCoordinates_invalid
    { nodes := [{ id := 0, fieldParams :=
        [("c", [(DerivLabel.value, [{ values := [1, 2, 3, 4], readOk := true, writeOk := true }])])] }] }
    { name := "c", ncomp := 4,
      coordSys := CoordinateSystemType.rectangularCartesian, isFiniteElement := true }
    [[1, 0, 0, 0], [0, 1, 0, 0], [0, 0, 1, 0], [0, 0, 0, 1]] [0, 0, 0, 0]
    (Or.inl (by decide))

/-- Claim C9: transformCoordinates only ever writes nodal parameters of
the field it is given: every node keeps its identifier, the parameters of
every other field on every node are unchanged, and any slot of the given
field whose read fails receives no write and keeps its stored value. -/
theorem transformCoordinates_frame (fm : Fieldmodule) (f : FieldInfo)
    (rs : List (List ℚ)) (off : List ℚ) (i : ℕ) (n : ZNode)
    (hn : fm.nodes[i]? = some n) :
    ∃ n2, (transformCoordinates fm f rs off).2.nodes[i]? = some n2
      ∧ n2.id = n.id
      ∧ (∀ g, g ≠ f.name → alookup g n2.fieldParams = alookup g n.fieldParams)
      ∧ (∀ d v s, getSlot n f.name d v = some s → s.readOk = false →
           getSlot n2 f.name d v = some s) := by
  unfold transformCoordinates
  split_ifs with h1 h3 h4 h5 h6
  · exact ⟨n, hn, rfl, fun g _ => rfl, fun d v s hs _ => hs⟩
  · exact ⟨n, hn, rfl, fun g _ => rfl, fun d v s hs _ => hs⟩
  · exact ⟨n, hn, rfl, fun g _ => rfl, fun d v s hs _ => hs⟩
  · exact ⟨n, hn, rfl, fun g _ => rfl, fun d v s hs _ => hs⟩
  · exact ⟨n, hn, rfl, fun g _ => rfl, fun d v s hs _ => hs⟩
  · rw [sweepNodes_eq]
    refine ⟨transformNodeFn rs off f.name n, ?_, rfl, ?_, ?_⟩
    · simp [List.getElem?_map, hn]
    · intro g hg
      unfold transformNodeFn
      exact alookup_transformNodeEntryFn_ne rs off f.name g hg n.fieldParams
    · intro d v s hs hread
      rw [getSlot_transformNodeFn, hs]
      simp only [Option.map_some']
      unfold transformSlotFn
      rw [hread]
      simp

/-- Claim C9 witness: a slot whose read fails keeps its value, another
field on the same node is untouched, and the identifier is preserved. -/
theorem transformCoordinates_frame_witness :
    ∃ n2, (transformCoordinates
        { nodes := [{ id := 7, fieldParams :=
            [("c", [(DerivLabel.value, [{ values := [1, 2], readOk := false, writeOk := true }])]),
             ("other", [(DerivLabel.value, [{ values := [9, 9], readOk := true, writeOk := true }])])] }] }
        { name := "c", ncomp := 2,
          coordSys := CoordinateSystemType.rectangularCartesian, isFiniteElement := true }
        [[1, 0], [0, 1]] [3, 4]).2.nodes[0]? = some n2
      ∧ n2.id = (7 : ℤ)
      ∧ (∀ g, g ≠ "c" → alookup g n2.fieldParams = alookup g
          [("c", [(DerivLabel.value, [{ values := [1, 2], readOk := false, writeOk := true }])]),
           ("other", [(DerivLabel.value, [{ values := [9, 9], readOk := true, writeOk := true }])])])
      ∧ (∀ d v s, getSlot { id := 7, fieldParams :=
            [("c", [(DerivLabel.value, [{ values := [1, 2], readOk := false, writeOk := true }])]),
             ("other", [(DerivLabel.value, [{ values := [9, 9], readOk := true, writeOk := true }])])] }
            "c" d v = some s → s.readOk = false → getSlot n2 "c" d v = some s) :=
  transformCoordinates_frame
    { nodes := [{ id := 7, fieldParams :=
        [("c", [(DerivLabel.value, [{ values := [1, 2], readOk := false, writeOk := true }])]),
         ("other", [(DerivLabel.value, [{ values := [9, 9], readOk := true, writeOk := true }])])] }] }
    { name := "c", ncomp := 2,
      coordSys := CoordinateSystemType.rectangularCartesian, isFiniteElement := true }
    [[1, 0], [0, 1]] [3, 4] 0
    { id := 7, fieldParams :=
        [("c", [(DerivLabel.value, [{ values := [1, 2], readOk := false, writeOk := true }])]),
         ("other", [(DerivLabel.value, [{ values := [9, 9], readOk := true, writeOk := true }])])] }
    rfl

theorem identityMatrix_length (n : ℕ) : (identityMatrix n).length = n := by
  induction n with
  | zero => rfl
  | succ k ih => simp [identityMatrix, ih]

theorem identityMatrix_rows (n : ℕ) :
    ∀ row ∈ identityMatrix n, row.length = n := by
  induction n with
  | zero => intro row h; cases h
  | succ k ih =>
    intro row h
    unfold identityMatrix at h
    rcases List.mem_cons.mp h with h1 | h2
    · subst h1
      simp
    · obtain ⟨r, hr, hrow⟩ := List.mem_map.mp h2
      subst hrow
      simp [ih r hr]

theorem zeroVector_length (n : ℕ) : (zeroVector n).length = n := by
  simp [zeroVector]

theorem dot_replicate_zero (n : ℕ) :
    ∀ v : List ℚ, vectorops.dot (List.replicate n 0) v = 0 := by
  induction n with
  | zero => intro v; rfl
  | succ k ih =>
    intro v
    cases v with
    | nil => rfl
    | cons x xs =>
      unfold vectorops.dot at ih ⊢
      rw [List.replicate_succ, List.zipWith_cons_cons, List.sum_cons, ih xs]
      ring

theorem matrixvectormult_identity (n : ℕ) :
    ∀ v : List ℚ, v.length = n → vectorops.matrixvectormult (identityMatrix n) v = v := by
  induction n with
  | zero =>
    intro v hv
    rw [List.length_eq_zero] at hv
    subst hv
    rfl
  | succ k ih =>
    intro v hv
    cases v with
    | nil => cases hv
    | cons x xs =>
      have hxs : xs.length = k := by simpa using hv
      unfold identityMatrix vectorops.matrixvectormult
      simp only [List.map_cons, List.map_map]
      have hhead : vectorops.dot (1 :: List.replicate k 0) (x :: xs) = x := by
        unfold vectorops.dot
        rw [List.zipWith_cons_cons, List.sum_cons]
        have := dot_replicate_zero k xs
        unfold vectorops.dot at this
        rw [this]
        ring
      have htail : (identityMatrix k).map
          ((fun row => vectorops.dot row (x :: xs)) ∘ (fun row => 0 :: row)) = xs := by
        have hcomp : ∀ r : List ℚ,
            ((fun row => vectorops.dot row (x :: xs)) ∘ (fun row => 0 :: row)) r
              = vectorops.dot r xs := by
          intro r
          simp only [Function.comp]
          unfold vectorops.dot
          rw [List.zipWith_cons_cons, List.sum_cons]
          ring
        rw [List.map_congr_left (fun r _ => hcomp r)]
        have := ih xs hxs
        unfold vectorops.matrixvectormult at this
        exact this
      rw [hhead, htail]

theorem add_zeroVector (n : ℕ) :
    ∀ v : List ℚ, v.length = n → vectorops.add v (zeroVector n) = v := by
  induction n with
  | zero =>
    intro v hv
    rw [List.length_eq_zero] at hv
    subst hv
    rfl
  | succ k ih =>
    intro v hv
    cases v with
    | nil => cases hv
    | cons x xs =>
      have hxs : xs.length = k := by simpa using hv
      unfold vectorops.add zeroVector at ih ⊢
      rw [List.replicate_succ, List.zipWith_cons_cons, ih xs hxs]
      norm_num

theorem list_map_self {α : Type} (l : List α) (f : α → α) (h : ∀ a ∈ l, f a = a) :
    l.map f = l :=
  calc l.map f = l.map id := List.map_congr_left (fun a ha => h a ha)
    _ = l := List.map_id l

theorem transformSlotFn_id (n : ℕ) (d : DerivLabel) (s : NodeSlot)
    (hlen : s.values.length = n) :
    transformSlotFn (identityMatrix n) (zeroVector n) d s = s := by
  unfold transformSlotFn
  by_cases h : (s.readOk && s.writeOk) = true
  · rw [if_pos h, matrixvectormult_identity n s.values hlen]
    by_cases hd : d = DerivLabel.value
    · rw [if_pos hd, add_zeroVector n s.values hlen]
    · rw [if_neg hd]
  · rw [if_neg h]

theorem transformDerivFn_id (n : ℕ) (d : DerivLabel) :
    ∀ ps : NodeParams, (∀ de ∈ ps, ∀ s ∈ de.2, s.values.length = n) →
      transformDerivFn (identityMatrix n) (zeroVector n) d ps = ps := by
  intro ps
  induction ps with
  | nil => intro _; rfl
  | cons e rest ih =>
    intro hps
    obtain ⟨d0, ss⟩ := e
    unfold transformDerivFn
    by_cases h : d0 = d
    · rw [if_pos h]
      have hm : ss.map (transformSlotFn (identityMatrix n) (zeroVector n) d) = ss :=
        list_map_self ss _
          (fun s hs => transformSlotFn_id n d s
            (hps (d0, ss) (List.mem_cons_self _ _) s hs))
      rw [hm]
    · rw [if_neg h, ih (fun de hde s hs => hps de (List.mem_cons_of_mem _ hde) s hs)]

theorem transformParamsFn_id (n : ℕ) (ps : NodeParams)
    (hps : ∀ de ∈ ps, ∀ s ∈ de.2, s.values.length = n) :
    transformParamsFn (identityMatrix n) (zeroVector n) ps = ps := by
  unfold transformParamsFn
  have hgen : ∀ L : List DerivLabel,
      L.foldl (fun acc d => transformDerivFn (identityMatrix n) (zeroVector n) d acc) ps
        = ps := by
    intro L
    induction L with
    | nil => rfl
    | cons hd tl ih =>
      simp only [List.foldl_cons]
      rw [transformDerivFn_id n hd ps hps]
      exact ih
  exact hgen derivOrder

theorem transformNodeEntryFn_id (n : ℕ) (fname : String) :
    ∀ fps : List (String × NodeParams),
      (∀ e ∈ fps, e.1 = fname → ∀ de ∈ e.2, ∀ s ∈ de.2, s.values.length = n) →
      transformNodeEntryFn (identityMatrix n) (zeroVector n) fname fps = fps := by
  intro fps
  induction fps with
  | nil => intro _; rfl
  | cons e rest ih =>
    intro hfps
    obtain ⟨g, ps⟩ := e
    unfold transformNodeEntryFn
    by_cases h : g = fname
    · rw [if_pos h, transformParamsFn_id n ps
        (fun de hde s hs => hfps (g, ps) (List.mem_cons_self _ _) h de hde s hs)]
    · rw [if_neg h,
        ih (fun e he h1 de hde s hs => hfps e (List.mem_cons_of_mem _ he) h1 de hde s hs)]

theorem paramsSucc_of_flags (ps : NodeParams)
    (h : ∀ de ∈ ps, ∀ s ∈ de.2, s.readOk = true ∧ s.writeOk = true) :
    paramsSucc ps = true := by
  unfold paramsSucc
  rw [List.all_eq_true]
  intro d _
  cases hlk : alookup d ps with
  | none => rfl
  | some ss =>
    simp only [Option.getD_some]
    rw [List.all_eq_true]
    intro s hs
    obtain ⟨h1, h2⟩ := h (d, ss) (alookup_mem d ss ps hlk) s hs
    unfold slotSucc
    rw [h1, h2]
    rfl

theorem nodeSucc_of_flags (fname : String) (nd : ZNode)
    (hflags : ∀ e ∈ nd.fieldParams, e.1 = fname →
        ∀ de ∈ e.2, ∀ s ∈ de.2, s.readOk = true ∧ s.writeOk = true) :
    nodeSucc fname nd = true := by
  unfold nodeSucc
  cases hps : alookup fname nd.fieldParams with
  | none => exact paramsSucc_nil
  | some ps =>
    refine paramsSucc_of_flags ps ?_
    intro de hde s hs
    exact hflags (fname, ps) (alookup_mem fname ps _ hps) rfl de hde s hs

/-- Claim C7: on a valid rectangular-cartesian finite-element field whose
parameter sets are all readable and writable with the right component
count, transforming with the identity matrix and zero offset returns true
and leaves the whole state (every derivative and version of every node)
unchanged. -/
theorem transformCoordinates_identity (fm : Fieldmodule) (f : FieldInfo)
    (h2 : f.ncomp = 2 ∨ f.ncomp = 3)
    (hcs : f.coordSys = CoordinateSystemType.rectangularCartesian)
    (hfe : f.isFiniteElement = true)
    (hwf : ∀ nd ∈ fm.nodes, ∀ e ∈ nd.fieldParams, e.1 = f.name →
        ∀ de ∈ e.2, ∀ s ∈ de.2,
          s.readOk = true ∧ s.writeOk = true ∧ s.values.length = f.ncomp) :
    transformCoordinates fm f (identityMatrix f.ncomp) (zeroVector f.ncomp) = (true, fm) := by
  rw [transformCoordinates_valid fm f _ _ h2 (identityMatrix_length f.ncomp)
    (zeroVector_length f.ncomp) (identityMatrix_rows f.ncomp) hcs hfe]
  rw [sweepNodes_eq]
  have hmap : fm.nodes.map (transformNodeFn (identityMatrix f.ncomp) (zeroVector f.ncomp) f.name)
      = fm.nodes := by
    apply list_map_self
    intro nd hnd
    unfold transformNodeFn
    rw [transformNodeEntryFn_id f.ncomp f.name nd.fieldParams
      (fun e he h1 de hde s hs => (hwf nd hnd e he h1 de hde s hs).2.2)]
  have hall : fm.nodes.all (nodeSucc f.name) = true := by
    rw [List.all_eq_true]
    intro nd hnd
    exact nodeSucc_of_flags f.name nd
      (fun e he h1 de hde s hs =>
        ⟨(hwf nd hnd e he h1 de hde s hs).1, (hwf nd hnd e he h1 de hde s hs).2.1⟩)
  simp only [hmap, hall, Bool.and_true]

/-- Claim C7 witness: a concrete two-node module where the identity
transform with zero offset returns true and the state is unchanged. -/
theorem transformCoordinates_identity_witness :
    transformCoordinates
        { nodes :=
            [{ id := 0, fieldParams :=
                [("c", [(DerivLabel.value, [{ values := [1, 2], readOk := true, writeOk := true }]),
                        (DerivLabel.d_ds1, [{ values := [3, 4], readOk := true, writeOk := true }])])] },
             { id := 1, fieldParams :=
                [("c", [(DerivLabel.value, [{ values := [5, 6], readOk := true, writeOk := true }])])] }] }
        { name := "c", ncomp := 2,
          coordSys := CoordinateSystemType.rectangularCartesian, isFiniteElement := true }
        (identityMatrix 2) (zeroVector 2)
      = (true,
         { nodes :=
            [{ id := 0, fieldParams :=
                [("c", [(DerivLabel.value, [{ values := [1, 2], readOk := true, writeOk := true }]),
                        (DerivLabel.d_ds1, [{ values := [3, 4], readOk := true, writeOk := true }])])] },
             { id := 1, fieldParams :=
                [("c", [(DerivLabel.value, [{ values := [5, 6], readOk := true, writeOk := true }])])] }] }) :=
  transformCoordinates_identity
    { nodes :=
        [{ id := 0, fieldParams :=
            [("c", [(DerivLabel.value, [{ values := [1, 2], readOk := true, writeOk := true }]),
                    (DerivLabel.d_ds1, [{ values := [3, 4], readOk := true, writeOk := true }])])] },
         { id := 1, fieldParams :=
            [("c", [(DerivLabel.value, [{ values := [5, 6], readOk := true, writeOk := true }])])] }] }
    { name := "c", ncomp := 2,
      coordSys := CoordinateSystemType.rectangularCartesian, isFiniteElement := true }
    (Or.inl rfl) rfl rfl (by decide)
